import Mathlib

/-
  Verification development for the Thesis_IOT_Dashboard repository.

  The repository's broker connection manager (the FastAPI `EnhancedMQTTService`
  with its per-broker `MQTTBrokerConnection` instances) is documented in the
  repository but its Python source is not present; the components below that
  embed it are modelled directly from the specification text (each such
  definition says so in its doc comment).  The client-side code
  (src/client/src/components/MQTTBrokerControl.tsx and
  src/client/src/pages/StatisticPage.tsx) is present and is embedded from the
  source.
-/

namespace IoTDash

/- ===================================================================
   Connection state machine
   =================================================================== -/

/-- Modelled from the spec: the five phases of the per-broker Connection
state machine of §4.1 (the Python `MQTTBrokerConnection` is missing from
the sources). -/
inductive Phase
  | idle
  | connecting
  | connected
  | disconnecting
  | backoff
deriving DecidableEq

/-- Modelled from the spec: the ephemeral per-broker `ConnectionState` of §3
(`phase`, `retry_count`) together with the desired-state flag and the pending
backoff-timer flag of §4.1/§5 (the Python connection class is missing from
the sources). -/
structure ConnState where
  phase : Phase
  desired : Bool
  timerPending : Bool
  retryCount : Nat
deriving DecidableEq

/-- Events driving a Connection: the two user commands and the
internal/asynchronous events (handshake outcome, mid-session socket error,
backoff timer firing, graceful-teardown completion). -/
inductive ConnEvent
  | userConnect
  | userDisconnect
  | handshakeOk
  | handshakeFail
  | socketError
  | timerFire
  | teardownDone
deriving DecidableEq

/-- Events not initiated by the user. -/
def ConnEvent.isInternal : ConnEvent → Bool
  | .userConnect => false
  | .userDisconnect => false
  | _ => true

/-- Modelled from the spec: backoff base delay in seconds (§4.1: base 1s). -/
def backoffBase : Nat := 1

/-- Modelled from the spec: backoff delay cap in seconds (§4.1: cap 60s). -/
def backoffCap : Nat := 60

/-- Modelled from the spec: exponential backoff with factor 2 and a cap,
computed from the retry counter (§4.1). -/
def backoffDelay (retry : Nat) : Nat :=
  min (backoffBase * 2 ^ retry) backoffCap

/-- Modelled from the spec: the transition function of the Connection state
machine, §4.1.  `userDisconnect` cancels any pending backoff timer
atomically with the transition to `disconnecting` (§5 Cancellation); the
backoff timer re-enters `connecting` only if desired is still true when it
fires, otherwise the state falls to `idle`. -/
def connStep (s : ConnState) : ConnEvent → ConnState
  | .userConnect =>
      if s.phase = Phase.idle then
        { s with phase := Phase.connecting, desired := true }
      else
        { s with desired := true }
  | .userDisconnect =>
      if s.phase = Phase.connecting ∨ s.phase = Phase.connected ∨
          s.phase = Phase.backoff then
        { s with phase := Phase.disconnecting, desired := false,
                 timerPending := false }
      else
        { s with desired := false, timerPending := false }
  | .handshakeOk =>
      if s.phase = Phase.connecting then
        { s with phase := Phase.connected, retryCount := 0 }
      else s
  | .handshakeFail =>
      if s.phase = Phase.connecting then
        { s with phase := Phase.backoff, timerPending := true,
                 retryCount := s.retryCount + 1 }
      else s
  | .socketError =>
      if s.phase = Phase.connected then
        { s with phase := Phase.backoff, timerPending := true,
                 retryCount := s.retryCount + 1 }
      else s
  | .timerFire =>
      if s.phase = Phase.backoff ∧ s.timerPending = true then
        if s.desired then
          { s with phase := Phase.connecting, timerPending := false }
        else
          { s with phase := Phase.idle, timerPending := false }
      else s
  | .teardownDone =>
      if s.phase = Phase.disconnecting then
        { s with phase := Phase.idle }
      else s

/-- Run a Connection over a list of events. -/
def runConn (s : ConnState) (evs : List ConnEvent) : ConnState :=
  evs.foldl connStep s

/-- A Connection that has been told to stop: desired is off, no backoff
timer is pending, and the phase is `disconnecting` or already `idle`. -/
def Quiesced (s : ConnState) : Prop :=
  s.desired = false ∧ s.timerPending = false ∧
    (s.phase = Phase.disconnecting ∨ s.phase = Phase.idle)

lemma quiesced_after_connect_disconnect (s : ConnState) :
    Quiesced (connStep (connStep s ConnEvent.userConnect)
      ConnEvent.userDisconnect) := by
  cases h : s.phase <;>
    simp [connStep, Quiesced, h]

lemma quiesced_internal_step (s : ConnState) (e : ConnEvent)
    (hq : Quiesced s) (he : e.isInternal = true) :
    Quiesced (connStep s e) := by
  obtain ⟨hd, ht, hp⟩ := hq
  cases e with
  | userConnect => simp [ConnEvent.isInternal] at he
  | userDisconnect => simp [ConnEvent.isInternal] at he
  | handshakeOk =>
      rcases hp with h | h <;> simp [connStep, Quiesced, h, hd, ht]
  | handshakeFail =>
      rcases hp with h | h <;> simp [connStep, Quiesced, h, hd, ht]
  | socketError =>
      rcases hp with h | h <;> simp [connStep, Quiesced, h, hd, ht]
  | timerFire =>
      rcases hp with h | h <;> simp [connStep, Quiesced, h, hd, ht]
  | teardownDone =>
      rcases hp with h | h <;> simp [connStep, Quiesced, h, hd, ht]

lemma quiesced_run (evs : List ConnEvent) (s : ConnState)
    (hq : Quiesced s) (he : evs.all ConnEvent.isInternal = true) :
    Quiesced (runConn s evs) := by
  induction evs generalizing s with
  | nil => exact hq
  | cons e rest ih =>
      simp only [List.all_cons, Bool.and_eq_true] at he
      exact ih (connStep s e) (quiesced_internal_step s e hq he.1) he.2

lemma teardown_to_idle (u : ConnState)
    (h : u.phase = Phase.disconnecting ∨ u.phase = Phase.idle) :
    (connStep u ConnEvent.teardownDone).phase = Phase.idle := by
  rcases h with h | h <;> simp [connStep, h]

/-- C3: after `control(connect)` followed immediately by
`control(disconnect)`, whatever internal/asynchronous events follow
(handshake outcomes, stale backoff-timer firings), the Connection is never
in `Connecting` or `Backoff` — the disconnect cancelled the in-flight
attempt and the pending backoff timer atomically — and once the graceful
teardown completes the Connection ends in phase `Idle`. -/
theorem connect_then_disconnect_ends_idle (s : ConnState)
    (evs : List ConnEvent) (he : evs.all ConnEvent.isInternal = true) :
    (runConn (connStep (connStep s ConnEvent.userConnect)
        ConnEvent.userDisconnect) evs).phase ≠ Phase.connecting ∧
    (runConn (connStep (connStep s ConnEvent.userConnect)
        ConnEvent.userDisconnect) evs).phase ≠ Phase.backoff ∧
    (connStep (runConn (connStep (connStep s ConnEvent.userConnect)
        ConnEvent.userDisconnect) evs) ConnEvent.teardownDone).phase =
      Phase.idle := by
  have hq := quiesced_run evs _ (quiesced_after_connect_disconnect s) he
  obtain ⟨hd, ht, hp⟩ := hq
  refine ⟨?_, ?_, teardown_to_idle _ hp⟩
  · rcases hp with h | h <;> simp [h]
  · rcases hp with h | h <;> simp [h]

theorem connect_then_disconnect_ends_idle_witness :
    ([ConnEvent.timerFire, ConnEvent.handshakeFail,
        ConnEvent.handshakeOk].all ConnEvent.isInternal = true) ∧
    ((runConn (connStep (connStep ⟨Phase.connected, true, true, 2⟩
        ConnEvent.userConnect) ConnEvent.userDisconnect)
        [ConnEvent.timerFire, ConnEvent.handshakeFail,
          ConnEvent.handshakeOk]).phase ≠ Phase.connecting ∧
      (runConn (connStep (connStep ⟨Phase.connected, true, true, 2⟩
        ConnEvent.userConnect) ConnEvent.userDisconnect)
        [ConnEvent.timerFire, ConnEvent.handshakeFail,
          ConnEvent.handshakeOk]).phase ≠ Phase.backoff ∧
      (connStep (runConn (connStep (connStep ⟨Phase.connected, true, true, 2⟩
        ConnEvent.userConnect) ConnEvent.userDisconnect)
        [ConnEvent.timerFire, ConnEvent.handshakeFail,
          ConnEvent.handshakeOk]) ConnEvent.teardownDone).phase =
        Phase.idle) :=
  ⟨by decide,
    connect_then_disconnect_ends_idle ⟨Phase.connected, true, true, 2⟩
      [ConnEvent.timerFire, ConnEvent.handshakeFail, ConnEvent.handshakeOk]
      (by decide)⟩

/-- C4: across a run of consecutive Connection failures the backoff delay
is non-decreasing in the retry counter and never exceeds the cap; each
failure (handshake failure while `Connecting`, socket error while
`Connected`) increments `retry_count`; handshake success resets
`retry_count` to 0, so the delay of the first failure after a successful
`Connected` phase is the base value. -/
theorem backoff_monotone_capped_reset (r i j : Nat) (s t : ConnState)
    (hij : i ≤ j) (hs : s.phase = Phase.connecting)
    (ht : t.phase = Phase.connected) :
    backoffDelay (r + i) ≤ backoffDelay (r + j) ∧
    backoffDelay (r + j) ≤ backoffCap ∧
    (connStep s ConnEvent.handshakeFail).retryCount = s.retryCount + 1 ∧
    (connStep t ConnEvent.socketError).retryCount = t.retryCount + 1 ∧
    (connStep s ConnEvent.handshakeOk).retryCount = 0 ∧
    backoffDelay (connStep s ConnEvent.handshakeOk).retryCount =
      backoffBase := by
  refine ⟨?_, ?_, ?_, ?_, ?_, ?_⟩
  · exact min_le_min
      (Nat.mul_le_mul_left _
        (Nat.pow_le_pow_right (by norm_num) (Nat.add_le_add_left hij r)))
      (le_refl _)
  · exact min_le_right _ _
  · simp [connStep, hs]
  · simp [connStep, ht]
  · simp [connStep, hs]
  · simp [connStep, hs, backoffDelay, backoffBase, backoffCap]

theorem backoff_monotone_capped_reset_witness :
    (1 ≤ 3) ∧ (ConnState.mk Phase.connecting true false 4).phase =
      Phase.connecting ∧
    (ConnState.mk Phase.connected true false 4).phase = Phase.connected ∧
    (backoffDelay (2 + 1) ≤ backoffDelay (2 + 3) ∧
      backoffDelay (2 + 3) ≤ backoffCap ∧
      (connStep (ConnState.mk Phase.connecting true false 4)
        ConnEvent.handshakeFail).retryCount =
        (ConnState.mk Phase.connecting true false 4).retryCount + 1 ∧
      (connStep (ConnState.mk Phase.connected true false 4)
        ConnEvent.socketError).retryCount =
        (ConnState.mk Phase.connected true false 4).retryCount + 1 ∧
      (connStep (ConnState.mk Phase.connecting true false 4)
        ConnEvent.handshakeOk).retryCount = 0 ∧
      backoffDelay (connStep (ConnState.mk Phase.connecting true false 4)
        ConnEvent.handshakeOk).retryCount = backoffBase) :=
  ⟨by decide, rfl, rfl,
    backoff_monotone_capped_reset 2 1 3
      (ConnState.mk Phase.connecting true false 4)
      (ConnState.mk Phase.connected true false 4)
      (by decide) rfl rfl⟩

/- ===================================================================
   Broker configuration, registry, administrative operations
   =================================================================== -/

/-- Modelled from the spec: the `BrokerConfig` row of §3 (the backend
SQLAlchemy `MQTTBroker` model is missing from the sources; the field
content matches §3). -/
structure BrokerConfig where
  broker_id : Nat
  name : String
  host : String
  port : Nat
  username : Option String
  secret : Option String
  owner_id : Nat
  enabled : Bool
deriving DecidableEq

/-- Modelled from the spec: the §3 invariant on a `BrokerConfig` row:
`host` non-empty and `port` in the valid TCP range. -/
def validConfig (c : BrokerConfig) : Bool :=
  !c.host.isEmpty && decide (1 ≤ c.port) && decide (c.port ≤ 65535)

/-- Modelled from the spec: the `DeviceConfig` row of §3 (the backend
`Device` model is missing from the sources).  A null `broker_id` means the
device is unrouted. -/
structure DeviceConfig where
  device_id : Nat
  display_name : String
  broker_id : Option Nat
  device_type : String
  last_seen_at : Option Nat
deriving DecidableEq

/-- Modelled from the spec: the error kinds of §7. -/
inductive ErrKind
  | brokerNotFound
  | brokerBusy
  | deviceNotFound
  | deviceUnrouted
  | notConnected
  | validationError
deriving DecidableEq

/-- Result of an administrative registry operation. -/
inductive RegResult
  | ok
  | err (e : ErrKind)
deriving DecidableEq

/-- One registry entry: the stored config, the in-memory connection state,
and the last-connected / last-message data surfaced by the status API. -/
structure RegEntry where
  cfg : BrokerConfig
  conn : ConnState
  last_connected : Option String
  last_message : Option String
deriving DecidableEq

/-- Modelled from the spec: the ConnectionRegistry of §4.2, owning the set
of all Connection instances keyed by broker identity. -/
structure Registry where
  entries : List RegEntry
deriving DecidableEq

/-- Look up the registry entry for a broker id. -/
def findEntry (reg : Registry) (id : Nat) : Option RegEntry :=
  reg.entries.find? (fun e => e.cfg.broker_id == id)

/-- Modelled from the spec: §4.2 permits editing or deleting a broker only
while its Connection phase is `Idle` or `Backoff`. -/
def phaseEditable : Phase → Bool
  | Phase.idle => true
  | Phase.backoff => true
  | _ => false

lemma phaseEditable_true_iff (ph : Phase) :
    phaseEditable ph = true ↔ ph = Phase.idle ∨ ph = Phase.backoff := by
  cases ph <;> simp [phaseEditable]

/-- A patch applied by `updateBroker` (host/port/credentials/name). -/
structure BrokerPatch where
  name : String
  host : String
  port : Nat
  username : Option String
  secret : Option String
deriving DecidableEq

/-- Apply a patch to a stored config. -/
def applyPatch (c : BrokerConfig) (p : BrokerPatch) : BrokerConfig :=
  { c with name := p.name, host := p.host, port := p.port,
           username := p.username, secret := p.secret }

/-- Modelled from the spec: `updateBroker(id, patch)` of §4.2 (the backend
PUT handler is missing from the sources).  Fails with `BrokerBusy` when the
target Connection's phase is anything other than `Idle`/`Backoff` and then
performs no persistence write; on success persists the patched row and
leaves the Connection in `Idle`. -/
def updateBroker (reg : Registry) (id : Nat) (p : BrokerPatch) :
    RegResult × Registry :=
  match findEntry reg id with
  | none => (RegResult.err ErrKind.brokerNotFound, reg)
  | some e =>
      if phaseEditable e.conn.phase then
        if validConfig (applyPatch e.cfg p) then
          (RegResult.ok,
            ⟨reg.entries.map (fun x =>
              if x.cfg.broker_id == id then
                { x with
                    cfg := applyPatch x.cfg p,
                    conn := ⟨Phase.idle, false, false, x.conn.retryCount⟩ }
              else x)⟩)
        else (RegResult.err ErrKind.validationError, reg)
      else (RegResult.err ErrKind.brokerBusy, reg)

/-- Modelled from the spec: `deleteBroker(id)` of §4.2 (the backend DELETE
handler is missing from the sources).  Fails with `BrokerBusy` under the
same phase condition as update; on success removes the Connection and
detaches all DeviceConfig rows pointing at the broker. -/
def deleteBroker (reg : Registry) (devs : List DeviceConfig) (id : Nat) :
    RegResult × Registry × List DeviceConfig :=
  match findEntry reg id with
  | none => (RegResult.err ErrKind.brokerNotFound, reg, devs)
  | some e =>
      if phaseEditable e.conn.phase then
        (RegResult.ok,
          ⟨reg.entries.filter (fun x => !(x.cfg.broker_id == id))⟩,
          devs.map (fun d =>
            if d.broker_id == some id then { d with broker_id := none }
            else d))
      else (RegResult.err ErrKind.brokerBusy, reg, devs)

/-- C1: on a broker whose Connection phase is `Connecting` or `Connected`,
`updateBroker` and `deleteBroker` return `BrokerBusy` and leave the stored
state (registry and device rows) unchanged; and whenever `updateBroker`
succeeds the target's phase was `Idle` or `Backoff`. -/
theorem updateDeleteBroker_busy_when_live (reg : Registry)
    (devs : List DeviceConfig) (id : Nat) (p : BrokerPatch) (e : RegEntry)
    (he : findEntry reg id = some e)
    (hp : e.conn.phase = Phase.connecting ∨ e.conn.phase = Phase.connected) :
    updateBroker reg id p = (RegResult.err ErrKind.brokerBusy, reg) ∧
    deleteBroker reg devs id = (RegResult.err ErrKind.brokerBusy, reg, devs) ∧
    (∀ reg2 id2 p2 e2, findEntry reg2 id2 = some e2 →
      (updateBroker reg2 id2 p2).1 = RegResult.ok →
      e2.conn.phase = Phase.idle ∨ e2.conn.phase = Phase.backoff) := by
  have hne : phaseEditable e.conn.phase = false := by
    rcases hp with h | h <;> simp [phaseEditable, h]
  refine ⟨?_, ?_, ?_⟩
  · simp [updateBroker, he, hne]
  · simp [deleteBroker, he, hne]
  · intro reg2 id2 p2 e2 he2 hok
    rw [← phaseEditable_true_iff]
    by_contra hcon
    rw [Bool.not_eq_true] at hcon
    simp only [updateBroker, he2, hcon] at hok
    simp at hok

/-- Concrete registry state used by the witnesses: one broker, connected. -/
def regLiveW : Registry :=
  ⟨[⟨⟨1, "Lab", "10.0.0.5", 1883, none, some "hunter2", 7, true⟩,
     ⟨Phase.connected, true, false, 0⟩, some "2025-01-01T00:00:00", none⟩]⟩

theorem updateDeleteBroker_busy_when_live_witness :
    (findEntry regLiveW 1 =
      some ⟨⟨1, "Lab", "10.0.0.5", 1883, none, some "hunter2", 7, true⟩,
        ⟨Phase.connected, true, false, 0⟩,
        some "2025-01-01T00:00:00", none⟩) ∧
    ((ConnState.mk Phase.connected true false 0).phase = Phase.connecting ∨
      (ConnState.mk Phase.connected true false 0).phase = Phase.connected) ∧
    (updateBroker regLiveW 1 ⟨"Lab", "10.0.0.5", 1884, none, none⟩ =
        (RegResult.err ErrKind.brokerBusy, regLiveW) ∧
      deleteBroker regLiveW [] 1 =
        (RegResult.err ErrKind.brokerBusy, regLiveW, []) ∧
      (∀ reg2 id2 p2 e2, findEntry reg2 id2 = some e2 →
        (updateBroker reg2 id2 p2).1 = RegResult.ok →
        e2.conn.phase = Phase.idle ∨ e2.conn.phase = Phase.backoff)) :=
  ⟨by decide, Or.inr rfl,
    updateDeleteBroker_busy_when_live regLiveW [] 1
      ⟨"Lab", "10.0.0.5", 1884, none, none⟩
      ⟨⟨1, "Lab", "10.0.0.5", 1883, none, some "hunter2", 7, true⟩,
        ⟨Phase.connected, true, false, 0⟩,
        some "2025-01-01T00:00:00", none⟩
      (by decide) (Or.inr rfl)⟩

/- ===================================================================
   Status snapshot surface
   =================================================================== -/

/-- The per-broker status record, embedded from the source: the
`MQTTBroker` interface of src/client/src/components/MQTTBrokerControl.tsx
(lines 7-17), the type at which the client consumes the
`/api/mqtt-brokers/status` response.  Note the boolean `connected` flag and
the absence of any password field. -/
structure MQTTBrokerStatus where
  broker_id : Nat
  broker_name : String
  broker_host : String
  broker_port : Nat
  username : Option String
  is_active : Bool
  connected : Bool
  last_connected : Option String
  last_message : Option String
deriving DecidableEq

/-- Field names of the snapshot record, embedded from the source
`MQTTBroker` interface (MQTTBrokerControl.tsx lines 7-17), in declaration
order. -/
def mqttBrokerStatusFields : List String :=
  ["broker_id", "broker_name", "broker_host", "broker_port", "username",
    "is_active", "connected", "last_connected", "last_message"]

/-- Field names the specification claims for `statusSnapshot()` output
(spec §4.2); written from the spec's words, for comparison against the
source record shape. -/
def specBrokerStatusFields : List String :=
  ["broker_id", "name", "host", "port", "phase", "last_connected_at",
    "last_error"]

/-- Projection of one registry entry to its status record.  The record
shape is the source `MQTTBroker` interface; the boolean `connected` flag is
derived from the connection state, and no credential field is read. -/
def brokerStatusView (e : RegEntry) : MQTTBrokerStatus :=
  { broker_id := e.cfg.broker_id
    broker_name := e.cfg.name
    broker_host := e.cfg.host
    broker_port := e.cfg.port
    username := e.cfg.username
    is_active := e.cfg.enabled
    connected := decide (e.conn.phase = Phase.connected)
    last_connected := e.last_connected
    last_message := e.last_message }

/-- Modelled from the spec: `statusSnapshot()` of §4.2 (the backend status
endpoint is missing from the sources) — a pure, point-in-time projection of
every known broker, producing records of the source's `MQTTBroker` shape. -/
def statusSnapshot (reg : Registry) : List MQTTBrokerStatus :=
  reg.entries.map brokerStatusView

/-- Erase the stored credential of an entry, keeping everything else. -/
def scrubEntry (e : RegEntry) : RegEntry :=
  { e with cfg := { e.cfg with secret := none } }

lemma brokerStatusView_scrub (e : RegEntry) :
    brokerStatusView (scrubEntry e) = brokerStatusView e := rfl

lemma statusSnapshot_via_scrub (reg : Registry) :
    statusSnapshot reg = (reg.entries.map scrubEntry).map brokerStatusView := by
  rw [statusSnapshot, List.map_map]
  rfl

/-- C2: the status snapshot never depends on the stored secret — two
registries that agree on everything except the brokers' secrets produce
identical snapshots, so the credential cannot appear in (or influence) any
snapshot field; the `username` is echoed back but the `secret` never leaves
the registry. -/
theorem statusSnapshot_secret_noninterference (r1 r2 : Registry)
    (h : r1.entries.map scrubEntry = r2.entries.map scrubEntry) :
    statusSnapshot r1 = statusSnapshot r2 := by
  rw [statusSnapshot_via_scrub, statusSnapshot_via_scrub, h]

/-- Concrete registry for the C2 witness: same broker as `regLiveW` but the
stored secret replaced by a different one. -/
def regLiveW2 : Registry :=
  ⟨[⟨⟨1, "Lab", "10.0.0.5", 1883, none, some "different-secret", 7, true⟩,
     ⟨Phase.connected, true, false, 0⟩, some "2025-01-01T00:00:00", none⟩]⟩

theorem statusSnapshot_secret_noninterference_witness :
    (regLiveW.entries.map scrubEntry = regLiveW2.entries.map scrubEntry) ∧
    statusSnapshot regLiveW = statusSnapshot regLiveW2 :=
  ⟨by decide,
    statusSnapshot_secret_noninterference regLiveW regLiveW2 (by decide)⟩

/-- C7 counterexample: the snapshot record of the program (the `MQTTBroker`
interface the client consumes) does not carry the spec's claimed field set
`{broker_id, name, host, port, phase, last_connected_at, last_error}`: it
has no `phase` field at all and instead a boolean `connected` flag. -/
theorem statusFields_differ_from_spec :
    mqttBrokerStatusFields ≠ specBrokerStatusFields ∧
    "phase" ∉ mqttBrokerStatusFields ∧
    "connected" ∈ mqttBrokerStatusFields ∧
    "connected" ∉ specBrokerStatusFields := by
  decide

/-- C7 amended: `statusSnapshot` returns, for every known broker, exactly
one record — of the source's `MQTTBroker` shape `{broker_id, broker_name,
broker_host, broker_port, username, is_active, connected, last_connected,
last_message}` with a boolean `connected` flag rather than a five-state
phase — and the call is a pure point-in-time read: its output is exactly
the image of the registry entries under the per-entry projection. -/
theorem statusSnapshot_one_record_per_broker (reg : Registry)
    (b : MQTTBrokerStatus) :
    (statusSnapshot reg).length = reg.entries.length ∧
    (b ∈ statusSnapshot reg ↔ ∃ e ∈ reg.entries, b = brokerStatusView e) ∧
    (∀ e ∈ reg.entries,
      (brokerStatusView e).connected = decide (e.conn.phase = Phase.connected)) := by
  refine ⟨List.length_map _ _, ?_, fun e _ => rfl⟩
  rw [statusSnapshot, List.mem_map]
  constructor
  · rintro ⟨e, hmem, hEq⟩
    exact ⟨e, hmem, hEq.symm⟩
  · rintro ⟨e, hmem, hEq⟩
    exact ⟨e, hmem, hEq.symm⟩

theorem statusSnapshot_one_record_per_broker_witness :
    (statusSnapshot regLiveW).length = regLiveW.entries.length ∧
    (brokerStatusView
        ⟨⟨1, "Lab", "10.0.0.5", 1883, none, some "hunter2", 7, true⟩,
          ⟨Phase.connected, true, false, 0⟩,
          some "2025-01-01T00:00:00", none⟩ ∈ statusSnapshot regLiveW ↔
      ∃ e ∈ regLiveW.entries,
        brokerStatusView
          ⟨⟨1, "Lab", "10.0.0.5", 1883, none, some "hunter2", 7, true⟩,
            ⟨Phase.connected, true, false, 0⟩,
            some "2025-01-01T00:00:00", none⟩ = brokerStatusView e) ∧
    (∀ e ∈ regLiveW.entries,
      (brokerStatusView e).connected =
        decide (e.conn.phase = Phase.connected)) :=
  statusSnapshot_one_record_per_broker regLiveW
    (brokerStatusView
      ⟨⟨1, "Lab", "10.0.0.5", 1883, none, some "hunter2", 7, true⟩,
        ⟨Phase.connected, true, false, 0⟩,
        some "2025-01-01T00:00:00", none⟩)

/- ===================================================================
   Device router
   =================================================================== -/

/-- Modelled from the spec: the append-only `Message` log row of §3 (the
backend model is missing from the sources).  `inbound` is true for
broker-to-process traffic. -/
structure Message where
  broker_id : Nat
  topic : String
  payload : String
  inbound : Bool
  timestamp : Nat
deriving DecidableEq

/-- Modelled from the spec: the `SensorReading` row of §3 (the backend
model is missing from the sources). -/
structure SensorReading where
  device_id : Nat
  sensor_type : String
  value : Int
  timestamp : Nat
deriving DecidableEq

/-- Outcome of `routeInbound`: the rows appended to the two logs and the
updated device table.  The router is a total function — decode failures are
swallowed, never raised to the caller. -/
structure RouteInResult where
  messages : List Message
  readings : List SensorReading
  devices : List DeviceConfig
deriving DecidableEq

/-- Modelled from the spec: `routeInbound(broker_id, topic, payload)` of
§4.3 (the backend router is missing from the sources).  The topic-to-device
rule and the per-device-type payload decoder are the spec's pluggable
external strategies, passed as parameters.  The message is always appended;
a device match updates `last_seen_at` and decodes readings; a decode
failure is logged in the message row only and swallowed. -/
def routeInbound (topicMap : String → Option Nat)
    (decode : String → String → Except String (List (String × Int)))
    (devs : List DeviceConfig) (brokerId : Nat) (topic payload : String)
    (now : Nat) : RouteInResult :=
  let msg : Message := ⟨brokerId, topic, payload, true, now⟩
  match topicMap topic with
  | none => ⟨[msg], [], devs⟩
  | some did =>
      match devs.find? (fun d => d.device_id == did) with
      | none => ⟨[msg], [], devs⟩
      | some d =>
          let devs2 := devs.map (fun x =>
            if x.device_id == did then { x with last_seen_at := some now }
            else x)
          match decode d.device_type payload with
          | Except.error _ => ⟨[msg], [], devs2⟩
          | Except.ok rs =>
              ⟨[msg], rs.map (fun sv => ⟨did, sv.1, sv.2, now⟩), devs2⟩

/-- C5: when the topic matches no device (either the topic-to-device rule
yields nothing, or it yields an id not present in the device table),
`routeInbound` appends exactly one Message row, produces zero SensorReading
rows, leaves the device table untouched, and — being a total function —
raises nothing to the caller. -/
theorem routeInbound_unmatched_topic (topicMap : String → Option Nat)
    (decode : String → String → Except String (List (String × Int)))
    (devs : List DeviceConfig) (brokerId : Nat) (topic payload : String)
    (now : Nat)
    (h : ∀ did, topicMap topic = some did →
      devs.find? (fun d => d.device_id == did) = none) :
    routeInbound topicMap decode devs brokerId topic payload now =
      ⟨[⟨brokerId, topic, payload, true, now⟩], [], devs⟩ := by
  cases htm : topicMap topic with
  | none => simp [routeInbound, htm]
  | some did => simp [routeInbound, htm, h did htm]

theorem routeInbound_unmatched_topic_witness :
    (∀ did, (fun t => if t = "power/meter" then some 42 else none)
        "lab/unknown" = some did →
      List.find? (fun d => d.device_id == did)
        ([⟨7, "Meter", some 1, "power", none⟩] : List DeviceConfig) = none) ∧
    routeInbound (fun t => if t = "power/meter" then some 42 else none)
      (fun _ _ => Except.ok [("value", 3)])
      [⟨7, "Meter", some 1, "power", none⟩] 1 "lab/unknown" "229.5" 99 =
      ⟨[⟨1, "lab/unknown", "229.5", true, 99⟩], [],
        [⟨7, "Meter", some 1, "power", none⟩]⟩ :=
  ⟨fun did hd => by simp at hd,
    routeInbound_unmatched_topic _ _ _ _ _ _ _ (fun did hd => by simp at hd)⟩

/-- Outcome of `routeOutbound`: either an error kind or a publish handed to
the resolved Connection (the only I/O the router can trigger). -/
inductive RouteOutResult
  | err (e : ErrKind)
  | published (brokerId : Nat) (topic : String) (payload : String)
deriving DecidableEq

/-- Modelled from the spec: `routeOutbound(device_id, command)` of §4.3
(the backend router is missing from the sources).  Resolves device →
broker_id → Connection; `DeviceNotFound` for an unknown id,
`DeviceUnrouted` for a null `broker_id`, `NotConnected` when the resolved
Connection is not in phase `Connected`, otherwise `Connection.publish` on
the device's topic (the device-to-topic rule is the spec's external
strategy, passed as a parameter). -/
def routeOutbound (reg : Registry) (devs : List DeviceConfig)
    (outTopic : Nat → String) (did : Nat) (command : String) :
    RouteOutResult :=
  match devs.find? (fun d => d.device_id == did) with
  | none => RouteOutResult.err ErrKind.deviceNotFound
  | some d =>
      match d.broker_id with
      | none => RouteOutResult.err ErrKind.deviceUnrouted
      | some bid =>
          match findEntry reg bid with
          | none => RouteOutResult.err ErrKind.brokerNotFound
          | some e =>
              if e.conn.phase = Phase.connected then
                RouteOutResult.published bid (outTopic did) command
              else RouteOutResult.err ErrKind.notConnected

/-- C6: `routeOutbound` returns `DeviceNotFound` for an unknown device id;
`DeviceUnrouted` for a device whose `broker_id` is null — an error result,
so no publish is triggered; `NotConnected` when the resolved Connection's
phase is not `Connected`; and otherwise hands the command to
`Connection.publish` on the device's broker. -/
theorem routeOutbound_resolution (reg : Registry) (devs : List DeviceConfig)
    (outTopic : Nat → String) (did : Nat) (command : String) :
    (devs.find? (fun d => d.device_id == did) = none →
      routeOutbound reg devs outTopic did command =
        RouteOutResult.err ErrKind.deviceNotFound) ∧
    (∀ d, devs.find? (fun x => x.device_id == did) = some d →
      d.broker_id = none →
      routeOutbound reg devs outTopic did command =
        RouteOutResult.err ErrKind.deviceUnrouted) ∧
    (∀ d bid e, devs.find? (fun x => x.device_id == did) = some d →
      d.broker_id = some bid → findEntry reg bid = some e →
      e.conn.phase ≠ Phase.connected →
      routeOutbound reg devs outTopic did command =
        RouteOutResult.err ErrKind.notConnected) ∧
    (∀ d bid e, devs.find? (fun x => x.device_id == did) = some d →
      d.broker_id = some bid → findEntry reg bid = some e →
      e.conn.phase = Phase.connected →
      routeOutbound reg devs outTopic did command =
        RouteOutResult.published bid (outTopic did) command) := by
  refine ⟨?_, ?_, ?_, ?_⟩
  · intro h
    simp [routeOutbound, h]
  · intro d hd hb
    simp [routeOutbound, hd, hb]
  · intro d bid e hd hb he hph
    simp [routeOutbound, hd, hb, he, hph]
  · intro d bid e hd hb he hph
    simp [routeOutbound, hd, hb, he, hph]

/-- Concrete device table for the C6 witness: device 7 is unrouted. -/
def devsUnroutedW : List DeviceConfig :=
  [⟨7, "Orphan sensor", none, "power", none⟩]

theorem routeOutbound_resolution_witness :
    (devsUnroutedW.find? (fun x => x.device_id == 7) =
      some ⟨7, "Orphan sensor", none, "power", none⟩) ∧
    ((⟨7, "Orphan sensor", none, "power", none⟩ :
        DeviceConfig).broker_id = none) ∧
    routeOutbound regLiveW devsUnroutedW (fun n => toString n) 7 "relay-on" =
      RouteOutResult.err ErrKind.deviceUnrouted :=
  ⟨by decide, rfl,
    (routeOutbound_resolution regLiveW devsUnroutedW
        (fun n => toString n) 7 "relay-on").2.1
      ⟨7, "Orphan sensor", none, "power", none⟩ (by decide) rfl⟩

/- ===================================================================
   Registry startup
   =================================================================== -/

/-- Modelled from the spec: `loadAndStart()` of §4.2 (the backend startup
hook is missing from the sources).  Reads the stored `BrokerConfig` rows,
creates one Connection per row starting in `Idle`, and invokes `connect()`
exactly on the rows with `enabled = true`.  Returns the registry together
with the list of broker ids on which `connect()` was invoked. -/
def loadAndStart : List BrokerConfig → Registry × List Nat
  | [] => (⟨[]⟩, [])
  | c :: rest =>
      let started := loadAndStart rest
      let freshConn : ConnState := ⟨Phase.idle, false, false, 0⟩
      if c.enabled then
        (⟨⟨c, connStep freshConn ConnEvent.userConnect, none, none⟩ ::
            started.1.entries⟩,
          c.broker_id :: started.2)
      else
        (⟨⟨c, freshConn, none, none⟩ :: started.1.entries⟩, started.2)

/-- C8: `loadAndStart` creates one Connection for every stored row, every
id on which `connect()` was invoked belongs to a row with `enabled = true`,
and every broker stored with `enabled = false` still has its Connection in
the initial `Idle` state with desired off — `connect()` was never invoked
on it. -/
theorem loadAndStart_connects_only_enabled (rows : List BrokerConfig) :
    (loadAndStart rows).1.entries.length = rows.length ∧
    (∀ c ∈ rows, ∃ e ∈ (loadAndStart rows).1.entries, e.cfg = c) ∧
    (∀ i ∈ (loadAndStart rows).2,
      ∃ c ∈ rows, c.broker_id = i ∧ c.enabled = true) ∧
    (∀ e ∈ (loadAndStart rows).1.entries, e.cfg.enabled = false →
      e.conn = ⟨Phase.idle, false, false, 0⟩) := by
  induction rows with
  | nil => exact ⟨rfl, by simp, by simp [loadAndStart], by simp [loadAndStart]⟩
  | cons c rest ih =>
      obtain ⟨ihLen, ihAll, ihCalls, ihIdle⟩ := ih
      by_cases hc : c.enabled
      · refine ⟨?_, ?_, ?_, ?_⟩
        · simp [loadAndStart, hc, ihLen]
        · intro x hx
          rcases List.mem_cons.mp hx with hx | hx
          · exact ⟨⟨c, connStep ⟨Phase.idle, false, false, 0⟩
                ConnEvent.userConnect, none, none⟩,
              by simp [loadAndStart, hc], by rw [hx]⟩
          · obtain ⟨e, hmem, hcfg⟩ := ihAll x hx
            exact ⟨e, by simp [loadAndStart, hc]; exact Or.inr hmem, hcfg⟩
        · intro i hi
          simp only [loadAndStart, hc, if_pos] at hi
          rcases List.mem_cons.mp hi with hi | hi
          · exact ⟨c, List.mem_cons_self _ _, hi.symm, hc⟩
          · obtain ⟨c2, hmem, hid, hen⟩ := ihCalls i hi
            exact ⟨c2, List.mem_cons_of_mem _ hmem, hid, hen⟩
        · intro e he hdis
          simp only [loadAndStart, hc, if_pos] at he
          rcases List.mem_cons.mp he with he | he
          · rw [he] at hdis
            simp only at hdis
            rw [hdis] at hc
            cases hc
          · exact ihIdle e he hdis
      · rw [Bool.not_eq_true] at hc
        refine ⟨?_, ?_, ?_, ?_⟩
        · simp [loadAndStart, hc, ihLen]
        · intro x hx
          rcases List.mem_cons.mp hx with hx | hx
          · exact ⟨⟨c, ⟨Phase.idle, false, false, 0⟩, none, none⟩,
              by simp [loadAndStart, hc], by rw [hx]⟩
          · obtain ⟨e, hmem, hcfg⟩ := ihAll x hx
            exact ⟨e, by simp [loadAndStart, hc]; exact Or.inr hmem, hcfg⟩
        · intro i hi
          simp only [loadAndStart, hc] at hi
          obtain ⟨c2, hmem, hid, hen⟩ := ihCalls i hi
          exact ⟨c2, List.mem_cons_of_mem _ hmem, hid, hen⟩
        · intro e he hdis
          simp only [loadAndStart, hc] at he
          rcases List.mem_cons.mp he with he | he
          · rw [he]
          · exact ihIdle e he hdis

/-- Concrete startup rows for the C8 witness: broker 5 enabled, broker 6
disabled. -/
def startupRowsW : List BrokerConfig :=
  [⟨5, "Lab", "10.0.0.5", 1883, none, none, 7, true⟩,
   ⟨6, "Attic", "10.0.0.6", 1883, none, none, 7, false⟩]

theorem loadAndStart_connects_only_enabled_witness :
    (loadAndStart startupRowsW).1.entries.length = startupRowsW.length ∧
    (∃ c ∈ startupRowsW, c.broker_id = 5 ∧ c.enabled = true) ∧
    (loadAndStart startupRowsW).2 = [5] :=
  ⟨(loadAndStart_connects_only_enabled startupRowsW).1,
    (loadAndStart_connects_only_enabled startupRowsW).2.2.1 5 (by decide),
    by decide⟩

/- ===================================================================
   Client: port input handling (MQTTBrokerControl.tsx)
   =================================================================== -/

/-- JavaScript `parseInt` as invoked (radix unspecified, hence decimal for
the values a `type="number"` input produces) on the port inputs of
MQTTBrokerControl.tsx (lines 366-374 and 424-432): leading whitespace is
skipped, then an optional sign, then the longest leading run of decimal
digits; `none` models `NaN` (no digits at all). -/
def jsParseInt (s : String) : Option Int :=
  let cs := s.toList.dropWhile (fun ch =>
    ch == ' ' || ch == '\t' || ch == '\n' || ch == '\r')
  let signAndRest : Int × List Char :=
    match cs with
    | '-' :: rest => (-1, rest)
    | '+' :: rest => (1, rest)
    | _ => (1, cs)
  let digits := signAndRest.2.takeWhile Char.isDigit
  if digits.isEmpty then none
  else
    some (signAndRest.1 *
      (digits.foldl (fun acc ch => acc * 10 + (ch.toNat - Char.toNat '0')) 0
        : Nat))

/-- The port-input change handler of both the add-broker and edit-broker
forms, embedded from the source
(`parseInt(e.target.value) || 1883`, MQTTBrokerControl.tsx lines 370 and
428): a falsy parse result — `NaN` or `0` — is replaced by the default
1883, anything else is stored as parsed. -/
def portFromInput (s : String) : Int :=
  match jsParseInt s with
  | none => 1883
  | some v => if v = 0 then 1883 else v

lemma portFromInput_ne_zero (t : String) : portFromInput t ≠ 0 := by
  rw [portFromInput]
  cases jsParseInt t with
  | none => norm_num
  | some v =>
      by_cases hv : v = 0
      · simp [hv]
      · simp [hv]

lemma portFold_ne_zero (l : List String) (a : Int) (ha : a ≠ 0) :
    l.foldl (fun _ t => portFromInput t) a ≠ 0 := by
  induction l generalizing a with
  | nil => exact ha
  | cons t rest ih => exact ih (portFromInput t) (portFromInput_ne_zero t)

/-- C9: whenever the port input's text parses (as JavaScript `parseInt`)
to `NaN` or `0`, the stored `broker_port` becomes the default 1883; the
handler never stores zero, so after any sequence of edits starting from
the initial 1883 the `broker_port` held in form state is a nonzero
integer. -/
theorem portInput_defaults_and_nonzero (s : String) (edits : List String)
    (h : jsParseInt s = none ∨ jsParseInt s = some 0) :
    portFromInput s = 1883 ∧
    (∀ t : String, portFromInput t ≠ 0) ∧
    edits.foldl (fun _ t => portFromInput t) (1883 : Int) ≠ 0 := by
  refine ⟨?_, portFromInput_ne_zero, portFold_ne_zero _ _ (by norm_num)⟩
  rcases h with h | h <;> simp [portFromInput, h]

theorem portInput_defaults_and_nonzero_witness :
    (jsParseInt "0" = none ∨ jsParseInt "0" = some 0) ∧
    (portFromInput "0" = 1883 ∧
      (∀ t : String, portFromInput t ≠ 0) ∧
      ["8080", "oops", "1884"].foldl (fun _ t => portFromInput t)
        (1883 : Int) ≠ 0) :=
  ⟨Or.inr (by decide),
    portInput_defaults_and_nonzero "0" ["8080", "oops", "1884"]
      (Or.inr (by decide))⟩

/- ===================================================================
   Client: chart series window (StatisticPage.tsx)
   =================================================================== -/

/-- One functional update of a chart series, embedded from the source
(each updater of StatisticPage.tsx lines 73-106): append the new reading,
then drop the single oldest element (`slice(1)`) when the series exceeds
10 entries. -/
def pushCap (prevData : List Rat) (x : Rat) : List Rat :=
  let newData := prevData ++ [x]
  if newData.length > 10 then newData.drop 1 else newData

/-- The seven chart series held by StatisticPage (StatisticPage.tsx lines
29-35). -/
structure StatSeriesState where
  voltageData : List Rat
  currentData : List Rat
  powerData : List Rat
  sensor1Data : List Rat
  sensor2Data : List Rat
  sensor3Data : List Rat
  sensor4Data : List Rat
deriving DecidableEq

/-- One invocation of `updateDataDebounced` (StatisticPage.tsx lines
61-107): each of the seven series receives its freshly generated reading
through the same append-then-cap update. -/
def updateDataDebounced (st : StatSeriesState)
    (newVoltage newCurrent newPower newSensor1 newSensor2 newSensor3
      newSensor4 : Rat) : StatSeriesState :=
  { voltageData := pushCap st.voltageData newVoltage
    currentData := pushCap st.currentData newCurrent
    powerData := pushCap st.powerData newPower
    sensor1Data := pushCap st.sensor1Data newSensor1
    sensor2Data := pushCap st.sensor2Data newSensor2
    sensor3Data := pushCap st.sensor3Data newSensor3
    sensor4Data := pushCap st.sensor4Data newSensor4 }

lemma pushCap_of_short (l : List Rat) (x : Rat) (h : l.length ≤ 9) :
    pushCap l x = l ++ [x] := by
  simp only [pushCap, List.length_append, List.length_cons, List.length_nil]
  rw [if_neg]
  omega

lemma pushCap_of_full (l : List Rat) (x : Rat) (h : 10 ≤ l.length) :
    pushCap l x = (l ++ [x]).drop 1 := by
  simp only [pushCap, List.length_append, List.length_cons, List.length_nil]
  rw [if_pos]
  omega

lemma pushCap_length_le (l : List Rat) (x : Rat) (h : l.length ≤ 10) :
    (pushCap l x).length ≤ 10 := by
  by_cases h9 : l.length ≤ 9
  · rw [pushCap_of_short l x h9]
    simp only [List.length_append, List.length_cons, List.length_nil]
    omega
  · rw [pushCap_of_full l x (by omega)]
    simp only [List.length_drop, List.length_append, List.length_cons,
      List.length_nil]
    omega

lemma foldl_pushCap_window (xs : List Rat) :
    xs.foldl pushCap [] = xs.drop (xs.length - 10) := by
  induction xs using List.reverseRecOn with
  | nil => rfl
  | append_singleton l x ih =>
      rw [List.foldl_append, ih]
      simp only [List.foldl_cons, List.foldl_nil]
      by_cases h : l.length ≤ 9
      · have h0 : l.length - 10 = 0 := by omega
        have h1 : (l ++ [x]).length - 10 = 0 := by
          simp only [List.length_append, List.length_cons, List.length_nil]
          omega
        rw [h0, List.drop_zero, pushCap_of_short l x h, h1, List.drop_zero]
      · have h10 : 10 ≤ l.length := by omega
        have hdlen : 10 ≤ (l.drop (l.length - 10)).length := by
          rw [List.length_drop]
          omega
        rw [pushCap_of_full _ x hdlen,
          List.drop_append_of_le_length
            (show (1 : Nat) ≤ (l.drop (l.length - 10)).length by omega),
          List.drop_drop,
          show (l ++ [x]).length - 10 = l.length - 9 by
            simp only [List.length_append, List.length_cons,
              List.length_nil]
            omega,
          List.drop_append_of_le_length
            (show l.length - 9 ≤ l.length by omega),
          show l.length - 10 + 1 = l.length - 9 by omega]

/-- C10: each invocation of `updateDataDebounced` pushes exactly one new
reading through the append-then-cap update on each of the seven series;
the update appends when the series would not exceed 10 elements and drops
the single oldest element when it would; hence a series built from the
initial empty state always has length at most 10 and is exactly the
window of the most recent (at most 10) readings in arrival order. -/
theorem updateData_caps_series (st : StatSeriesState)
    (v c p r1 r2 r3 r4 : Rat) (l : List Rat) (x : Rat) (xs : List Rat)
    (hl : l.length ≤ 10) :
    (updateDataDebounced st v c p r1 r2 r3 r4).voltageData =
      pushCap st.voltageData v ∧
    (updateDataDebounced st v c p r1 r2 r3 r4).currentData =
      pushCap st.currentData c ∧
    (updateDataDebounced st v c p r1 r2 r3 r4).powerData =
      pushCap st.powerData p ∧
    (updateDataDebounced st v c p r1 r2 r3 r4).sensor1Data =
      pushCap st.sensor1Data r1 ∧
    (updateDataDebounced st v c p r1 r2 r3 r4).sensor2Data =
      pushCap st.sensor2Data r2 ∧
    (updateDataDebounced st v c p r1 r2 r3 r4).sensor3Data =
      pushCap st.sensor3Data r3 ∧
    (updateDataDebounced st v c p r1 r2 r3 r4).sensor4Data =
      pushCap st.sensor4Data r4 ∧
    (l.length ≤ 9 → pushCap l x = l ++ [x]) ∧
    (10 ≤ l.length → pushCap l x = (l ++ [x]).drop 1) ∧
    (pushCap l x).length ≤ 10 ∧
    xs.foldl pushCap [] = xs.drop (xs.length - 10) ∧
    (xs.foldl pushCap []).length ≤ 10 :=
  ⟨rfl, rfl, rfl, rfl, rfl, rfl, rfl,
    pushCap_of_short l x, pushCap_of_full l x, pushCap_length_le l x hl,
    foldl_pushCap_window xs, by
      rw [foldl_pushCap_window xs, List.length_drop]
      omega⟩

theorem updateData_caps_series_witness :
    (([(1 : Rat), 2, 3]).length ≤ 10) ∧
    (pushCap [(1 : Rat), 2, 3] 4).length ≤ 10 :=
  ⟨by decide,
    (updateData_caps_series ⟨[], [], [], [], [], [], []⟩ 0 0 0 0 0 0 0
        [(1 : Rat), 2, 3] 4 [] (by decide)).2.2.2.2.2.2.2.2.2.1⟩

end IoTDash
